import Mathlib

/-!
Verification of the `moment_explorer` package (file `src/moment_explorer/explorer.py`),
a moment-map generator for radio-astronomy spectral cubes.  The embedding below
translates the `MomentMapExplorer` class and the parts of the external
`bettermoments` library it calls into Lean.  Numpy arrays are modelled as
shape-carrying functions with rational entries (floating-point rounding is
idealised away); `np.nan` entries of a 2-D map are modelled as `none`.
External effects (FITS I/O, the random weights drawn by
`bettermoments.collapse_first` / `collapse_ninth`, the square roots inside
`estimate_RMS` and `collapse_ninth`) enter as explicit parameters.
-/

namespace MomentExplorer

/-- A 3-D numpy array of shape `(nc, ny, nx)` (channel, y, x).  `val` is total;
entries outside the shape are phantom and never observed by the code. -/
structure Cube where
  nc : ℕ
  ny : ℕ
  nx : ℕ
  val : ℕ → ℕ → ℕ → ℚ

/-- Elementwise product of two same-shaped arrays (`a * b` in numpy). -/
def Cube.mul (a b : Cube) : Cube :=
  ⟨a.nc, a.ny, a.nx, fun k i j => a.val k i j * b.val k i j⟩

/-- Elementwise product of an array with a raw 3-D field (`a * m` in numpy,
used when the second factor is stored as a plain function, e.g. `self.mask`). -/
def Cube.mulFun (a : Cube) (m : ℕ → ℕ → ℕ → ℚ) : Cube :=
  ⟨a.nc, a.ny, a.nx, fun k i j => a.val k i j * m k i j⟩

/-- Boolean shape-and-elementwise equality of two arrays: `np.array_equal(a, b)`. -/
def Cube.eqb (a b : Cube) : Bool :=
  a.nc == b.nc && a.ny == b.ny && a.nx == b.nx &&
  ((List.range a.nc).all fun k =>
    ((List.range a.ny).all fun i =>
      ((List.range a.nx).all fun j => a.val k i j == b.val k i j)))

/-- Model of `np.array_equal(a, x)` where `x` may be `None` (in which case
numpy returns `False`). -/
def arrayEqualOpt (a : Cube) : Option Cube → Bool
  | none => false
  | some b => Cube.eqb a b

/-- Model of `np.cumsum(c, axis=0)`: entry `k` is the sum of channels `0..k`. -/
def cumsum (c : Cube) : Cube :=
  ⟨c.nc, c.ny, c.nx, fun k i j => ∑ t in Finset.range (k + 1), c.val t i j⟩

/-- Broadcast product `velax[:, None, None] * c` (channel-wise scaling). -/
def velMul (v : ℕ → ℚ) (c : Cube) : Cube :=
  ⟨c.nc, c.ny, c.nx, fun k i j => v k * c.val k i j⟩

/-- A 2-D moment map of shape `(ny, nx)`; `none` models an `np.nan` entry. -/
structure MomentMap where
  ny : ℕ
  nx : ℕ
  val : ℕ → ℕ → Option ℚ

/-- Environment for the external, non-deterministic or irrational ingredients
of the computation: `rng k i j` models the `np.random.rand` draw used for the
tiny tie-breaking weights in `bettermoments.collapse_first` / `collapse_ninth`
(each draw lies in `[0, 1)`); `estRMS` models `bettermoments.estimate_RMS`
(a standard deviation, hence irrational in general); `sqrtQ` models the
floating-point square root used by `collapse_ninth`. -/
structure Env where
  rng : ℕ → ℕ → ℕ → ℚ
  estRMS : Cube → ℚ
  sqrtQ : ℚ → ℚ

/-- Model of `bettermoments.get_channel_mask(data, firstchannel, lastchannel)`
with no `user_channels`: ones on channels `firstchannel ≤ k ≤ lastchannel`
broadcast to the cube shape; a negative `lastchannel` wraps around. -/
def bm.get_channel_mask (data : Cube) (firstchannel lastchannel : ℤ) : Cube :=
  let lastchannel' : ℤ :=
    if lastchannel < 0 then (data.nc : ℤ) + lastchannel else lastchannel
  ⟨data.nc, data.ny, data.nx, fun k _ _ =>
    if firstchannel ≤ (k : ℤ) ∧ (k : ℤ) ≤ lastchannel' then 1 else 0⟩

/-- Model of `bettermoments.get_threshold_mask(data, clip, smooth_threshold_mask=0.0)`
for a scalar `clip`: keeps voxels whose SNR (data over the internally
re-estimated RMS) lies outside `[-clip, clip]`. -/
def bm.get_threshold_mask (env : Env) (data : Cube) (clip : ℚ) : Cube :=
  let rms := env.estRMS data
  ⟨data.nc, data.ny, data.nx, fun k i j =>
    if data.val k i j / rms < -clip ∨ clip < data.val k i j / rms then 1 else 0⟩

/-- Model of `np.diff(velax).mean()` for a velocity axis of length `n`
(the quantity `chan` in the bettermoments collapse routines). -/
def meanChannelWidth (velax : ℕ → ℚ) (n : ℕ) : ℚ :=
  (∑ k in Finset.range (n - 1), (velax (k + 1) - velax k)) / ((n : ℚ) - 1)

/-- Model of `np.trapz(data, dx=dx, axis=0)` at pixel `(i, j)`. -/
def trapzChan (data : Cube) (dx : ℚ) (i j : ℕ) : ℚ :=
  dx * ∑ k in Finset.range (data.nc - 1), (data.val k i j + data.val (k + 1) i j) / 2

/-- Whether some channel of pixel `(i, j)` is non-zero
(`npix = np.sum(data != 0.0, axis=0)` being at least one). -/
def chanHasSignal (data : Cube) (i j : ℕ) : Bool :=
  (List.range data.nc).any fun k => data.val k i j != 0

/-- Model of `bettermoments.collapse_zeroth(velax, data, rms)`, first component:
trapezoidal integration of the (already masked) data along the channel axis
with spacing `abs(np.diff(velax).mean())`.  The returned uncertainty map is
dropped by all callers and is not modelled. -/
def bm.collapse_zeroth (velax : ℕ → ℚ) (data : Cube) (rms : ℚ) : MomentMap :=
  let chan := meanChannelWidth velax data.nc
  ⟨data.ny, data.nx, fun i j => some (trapzChan data |chan| i j)⟩

/-- Weights used by `bettermoments.collapse_first` / `collapse_ninth`:
`abs(data)` where the data is non-zero, otherwise a tiny random tie-breaker
`1e-10 * np.random.rand(...)`. -/
def bmWeights (env : Env) (data : Cube) (k i j : ℕ) : ℚ :=
  if data.val k i j ≠ 0 then |data.val k i j| else (1 / 10 ^ 10) * env.rng k i j

/-- Velocity of pixel channel `k` as reconstructed by the bettermoments
collapse routines: `chan * np.arange(nchan) + velax[0]`. -/
def bmVpix (velax : ℕ → ℚ) (n k : ℕ) : ℚ :=
  meanChannelWidth velax n * (k : ℚ) + velax 0

/-- Model of `bettermoments.collapse_first(velax, data, rms)`, first component:
the intensity-weighted average velocity, `np.nan` where no channel is non-zero. -/
def bm.collapse_first (env : Env) (velax : ℕ → ℚ) (data : Cube) (rms : ℚ) : MomentMap :=
  ⟨data.ny, data.nx, fun i j =>
    if chanHasSignal data i j then
      some ((∑ k in Finset.range data.nc, bmWeights env data k i j * bmVpix velax data.nc k) /
            (∑ k in Finset.range data.nc, bmWeights env data k i j))
    else none⟩

/-- Maximum of the data along the channel axis at pixel `(i, j)`. -/
def chanMax (data : Cube) (i j : ℕ) : ℚ :=
  (List.range data.nc).foldl (fun a k => max a (data.val k i j)) (data.val 0 i j)

/-- Model of `bettermoments.collapse_eighth(velax, data, rms)`, first component:
the peak intensity along the channel axis. -/
def bm.collapse_eighth (velax : ℕ → ℚ) (data : Cube) (rms : ℚ) : MomentMap :=
  ⟨data.ny, data.nx, fun i j => some (chanMax data i j)⟩

/-- Model of `bettermoments.collapse_ninth(velax, data, rms)`, first component:
the intensity-weighted velocity dispersion (square root of the weighted
variance of `bmVpix`), `np.nan` where no channel is non-zero. -/
def bm.collapse_ninth (env : Env) (velax : ℕ → ℚ) (data : Cube) (rms : ℚ) : MomentMap :=
  ⟨data.ny, data.nx, fun i j =>
    if chanHasSignal data i j then
      some (env.sqrtQ
        ((∑ k in Finset.range data.nc,
            bmWeights env data k i j *
              (bmVpix velax data.nc k -
                (∑ t in Finset.range data.nc, bmWeights env data t i j * bmVpix velax data.nc t) /
                (∑ t in Finset.range data.nc, bmWeights env data t i j)) ^ 2) /
          (∑ k in Finset.range data.nc, bmWeights env data k i j)))
    else none⟩

/-- The parameter dictionary cached by `generate` in `self.current_params`. -/
structure Params where
  moment : String
  first : ℤ
  last : ℤ
  clip_sigma : ℚ
  use_mask : Bool

/-- The mutable state of a `MomentMapExplorer` instance.  In Python the
fields `data`, `velax`, `mask`, `rms`, `header` start as `None`; here only
the fields that the code genuinely branches on being `None` (`data`,
`header`, `cube_path`, the caches and `current_moment`/`current_params`)
are `Option`s, the rest carry junk defaults that are never read before
`load_cube` sets them.  `nvel` records `len(self.velax)`. -/
structure Explorer where
  data : Option Cube
  velax : ℕ → ℚ
  nvel : ℕ
  mask : ℕ → ℕ → ℕ → ℚ
  rms : ℚ
  header : Option ℕ
  cube_path : Option String
  mask_path : Option String
  current_moment : Option MomentMap
  current_params : Option Params
  use_prefix_sums : Bool
  S0 : Option Cube
  S1 : Option Cube
  prefix_mask : Option Cube

/-- Model of `MomentMapExplorer.__init__`. -/
def Explorer.init : Explorer where
  data := none
  velax := fun _ => 0
  nvel := 0
  mask := fun _ _ _ => 1
  rms := 0
  header := none
  cube_path := none
  mask_path := none
  current_moment := none
  current_params := none
  use_prefix_sums := false
  S0 := none
  S1 := none
  prefix_mask := none

/-- The data read from disk by `load_cube` (what `bm.load_cube`,
`bm.get_user_mask` and `fits.getheader` return); FITS I/O itself is external. -/
structure LoadedCube where
  data : Cube
  velax : ℕ → ℚ
  nvel : ℕ
  userMask : ℕ → ℕ → ℕ → ℚ
  header : ℕ

/-- Model of `MomentMapExplorer.load_cube`: stores the paths, the cube, the
velocity axis, the user mask (or an all-ones mask when `mask_path` is `None`),
the estimated RMS and the header, and clears the prefix-sum caches.  The
summary dict it returns is not modelled. -/
def Explorer.load_cube (env : Env) (e : Explorer) (cube_path : String)
    (mask_path : Option String) (file : LoadedCube) : Explorer :=
  { e with
    cube_path := some cube_path
    mask_path := mask_path
    data := some file.data
    velax := file.velax
    nvel := file.nvel
    mask := match mask_path with
      | some _ => file.userMask
      | none => fun _ _ _ => 1
    rms := env.estRMS file.data
    header := some file.header
    S0 := none
    S1 := none
    prefix_mask := none }

/-- Model of `MomentMapExplorer.enable_prefix_sums`. -/
def Explorer.enable_prefix_sums (e : Explorer) (flag : Bool) : Explorer :=
  let e' := { e with use_prefix_sums := flag }
  if !flag then { e' with S0 := none, S1 := none, prefix_mask := none } else e'

/-- The local `effective_mask` built at the top of `_compute_prefix_sums`:
`channel_mask * self.mask` when `use_mask`, else `channel_mask`. -/
def effectiveMask (e : Explorer) (channel_mask : Cube) (use_mask : Bool) : Cube :=
  if use_mask then channel_mask.mulFun e.mask else channel_mask

/-- The early-return test of `_compute_prefix_sums`:
`self._S0 is not None and np.array_equal(effective_mask, self._prefix_mask)`. -/
def cacheHit (e : Explorer) (eff : Cube) : Bool :=
  e.S0.isSome && arrayEqualOpt eff e.prefix_mask

/-- Model of `MomentMapExplorer._compute_prefix_sums`.  The `Bool` component
is ghost instrumentation recording whether the prefix sums were recomputed
(`true`) or the cached ones were kept (`false`). -/
def Explorer.compute_prefix_sums (e : Explorer) (data channel_mask : Cube)
    (use_mask : Bool) : Explorer × Bool :=
  let eff := effectiveMask e channel_mask use_mask
  if cacheHit e eff then (e, false)
  else
    let masked_data := data.mul eff
    ({ e with
        S0 := some (cumsum masked_data)
        S1 := some (cumsum (velMul e.velax masked_data))
        prefix_mask := some eff }, true)

/-- The channel mask built inside `_compute_moment_prefix`:
`np.zeros_like(data)` with `channel_mask[first:last+1, :, :] = 1.0`.
Callers guarantee `0 ≤ first ≤ last < nc`, so Python slice clamping and
negative-index wrapping never fire and are not modelled. -/
def prefixChannelMask (data : Cube) (first last : ℤ) : Cube :=
  ⟨data.nc, data.ny, data.nx, fun k _ _ =>
    if first ≤ (k : ℤ) ∧ (k : ℤ) < last + 1 then 1 else 0⟩

/-- Model of `MomentMapExplorer._compute_moment_prefix`.  Callers guarantee
`0 ≤ first ≤ last < nc` so the integer indices into the caches are taken
with `Int.toNat`.  The fallback branch is unreachable: `_compute_prefix_sums`
always leaves `_S0`/`_S1` set (for a `moment` other than `'M0'`/`'M1'` Python
would fall off the end and return `None`, which `none` mirrors). -/
def Explorer.compute_moment_prefix (e : Explorer) (data : Cube) (moment : String)
    (first last : ℤ) (use_mask : Bool) : Explorer × Option MomentMap :=
  let channel_mask := prefixChannelMask data first last
  let e' := (e.compute_prefix_sums data channel_mask use_mask).1
  match e'.S0, e'.S1 with
  | some s0, some s1 =>
    let M0 : ℕ → ℕ → ℚ := fun i j =>
      if first = 0 then s0.val last.toNat i j
      else s0.val last.toNat i j - s0.val (first - 1).toNat i j
    let M1num : ℕ → ℕ → ℚ := fun i j =>
      if first = 0 then s1.val last.toNat i j
      else s1.val last.toNat i j - s1.val (first - 1).toNat i j
    if moment = "M0" then
      let dv := |e.velax 1 - e.velax 0|
      (e', some ⟨s0.ny, s0.nx, fun i j => some (M0 i j * dv)⟩)
    else if moment = "M1" then
      (e', some ⟨s0.ny, s0.nx, fun i j =>
        if M0 i j < 3 * e.rms then none
        else some (M1num i j / (M0 i j + 1 / 10 ^ 12))⟩)
    else (e', none)
  | _, _ => (e', none)

/-- Exceptions that `generate` can raise. -/
inductive GenError where
  | runtimeError
  | valueError
deriving DecidableEq

/-- The local `masked_data` of `_compute_moment_standard`: the bettermoments
channel mask is applied always, the user mask additionally for `'M0'`/`'M8'`
when `use_mask`, and the threshold mask instead for every other moment. -/
def standardMaskedData (env : Env) (e : Explorer) (data : Cube) (moment : String)
    (first last : ℤ) (clip_sigma : ℚ) (use_mask : Bool) : Cube :=
  let channel_mask := bm.get_channel_mask data first last
  let threshold_mask := bm.get_threshold_mask env data clip_sigma
  if moment = "M0" ∨ moment = "M8" then
    if use_mask then (data.mul channel_mask).mulFun e.mask
    else data.mul channel_mask
  else (data.mul threshold_mask).mul channel_mask

/-- Model of `MomentMapExplorer._compute_moment_standard`: masks the data with
the bettermoments channel mask (plus the user mask for `'M0'`/`'M8'` when
`use_mask`, or the threshold mask for everything else) and dispatches to the
bettermoments collapse routines; unknown moment strings raise `ValueError`. -/
def Explorer.compute_moment_standard (env : Env) (e : Explorer) (data : Cube)
    (moment : String) (first last : ℤ) (clip_sigma : ℚ) (use_mask : Bool) :
    Except GenError MomentMap :=
  let masked_data : Cube :=
    standardMaskedData env e data moment first last clip_sigma use_mask
  if moment = "M0" then .ok (bm.collapse_zeroth e.velax masked_data e.rms)
  else if moment = "M1" then .ok (bm.collapse_first env e.velax masked_data e.rms)
  else if moment = "M8" then .ok (bm.collapse_eighth e.velax masked_data e.rms)
  else if moment = "M9" then .ok (bm.collapse_ninth env e.velax masked_data e.rms)
  else .error .valueError

/-- The clamp `first = max(0, min(first, len(self.velax) - 1))` from `generate`. -/
def clampFirst (n : ℕ) (first : ℤ) : ℤ := max 0 (min first ((n : ℤ) - 1))

/-- The clamp `last = max(first, min(last, len(self.velax) - 1))` from `generate`. -/
def clampLast (n : ℕ) (first' last : ℤ) : ℤ := max first' (min last ((n : ℤ) - 1))

/-- Model of `MomentMapExplorer.generate`.  On success it returns the updated
explorer together with the computed map (the wall-clock compute time Python
also returns is not modelled).  An exception leaves the state unchanged, which
matches Python: the `self.current_moment` assignment happens only after the
compute call returns. -/
def Explorer.generate (env : Env) (e : Explorer) (moment : String)
    (first last : ℤ) (clip_sigma : ℚ) (use_mask : Bool) :
    Except GenError (Explorer × Option MomentMap) :=
  match e.data with
  | none => .error .runtimeError
  | some data =>
    let first' := clampFirst e.nvel first
    let last' := clampLast e.nvel first' last
    if e.use_prefix_sums && (moment == "M0" || moment == "M1") then
      let r := e.compute_moment_prefix data moment first' last' use_mask
      .ok ({ r.1 with
              current_moment := r.2
              current_params := some ⟨moment, first', last', clip_sigma, use_mask⟩ }, r.2)
    else
      match e.compute_moment_standard env data moment first' last' clip_sigma use_mask with
      | .error err => .error err
      | .ok m =>
        .ok ({ e with
                current_moment := some m
                current_params := some ⟨moment, first', last', clip_sigma, use_mask⟩ }, some m)

/-- Exceptions the `bettermoments.save_to_FITS` call inside `save` may raise. -/
inductive PyError where
  | valueError
  | typeError
  | attributeError
  | other
deriving DecidableEq

/-- Observable outcome of a `save` call: which exception escaped, or which
path was written by whom (`bmSaved` = the `bm.save_to_FITS` call succeeded,
`selfSaved` = the astropy fallback inside the `except` branch wrote the file
itself via `hdu.writeto(output_path)`). -/
inductive SaveOutcome where
  | runtimeError
  | keyError
  | bmSaved (returnedPath : String)
  | selfSaved (outputPath : String)
  | raised (err : PyError)
deriving DecidableEq

/-- The `method_map` dict in `save`; a lookup miss raises `KeyError`. -/
def methodMap : String → Option String
  | "M0" => some "zeroth"
  | "M1" => some "first"
  | "M8" => some "eighth"
  | "M9" => some "ninth"
  | _ => none

/-- Model of `path.replace('.fits', '_MOMENT.fits')`. -/
def replaceFits (path momentName : String) : String :=
  path.replace ".fits" ("_" ++ momentName ++ ".fits")

/-- Model of `MomentMapExplorer.save`.  `bmOutcome` is the outcome of the
external `bm.save_to_FITS` call (`none` = it succeeded, `some err` = it raised
`err`).  The explorer state is returned unchanged (the method assigns no
field); the FITS-header surgery of the fallback branch is an external astropy
effect summarised by the `selfSaved` outcome. -/
def Explorer.save (e : Explorer) (path : Option String) (bmOutcome : Option PyError) :
    Explorer × SaveOutcome :=
  match e.current_moment with
  | none => (e, .runtimeError)
  | some _ =>
    match e.current_params with
    | none => (e, .keyError)
    | some p =>
      match methodMap p.moment with
      | none => (e, .keyError)
      | some _ =>
        let cube_path := e.cube_path.getD ""
        let output_path := path.getD (replaceFits cube_path p.moment)
        match bmOutcome with
        | none => (e, .bmSaved (replaceFits cube_path p.moment))
        | some err =>
          if err = .valueError ∨ err = .typeError ∨ err = .attributeError then
            (e, .selfSaved output_path)
          else (e, .raised err)

/-- Consistency of the prefix-sum cache: either all three cache fields are
cleared, or they all hold values derived from the currently loaded data and
velocity axis (`_S0` the channel-axis cumulative sum of `data * _prefix_mask`
and `_S1` of `velax * data * _prefix_mask`). -/
def PrefixInv (e : Explorer) : Prop :=
  (e.S0 = none ∧ e.S1 = none ∧ e.prefix_mask = none) ∨
  (∃ data pm, e.data = some data ∧ e.prefix_mask = some pm ∧
    e.S0 = some (cumsum (data.mul pm)) ∧
    e.S1 = some (cumsum (velMul e.velax (data.mul pm))))

/-! ### Concrete fixtures used by counterexamples and witnesses -/

/-- A tiny concrete cube: 2 channels, 1×1 pixels, all entries 1. -/
def cube2 : Cube := ⟨2, 1, 1, fun _ _ _ => 1⟩

/-- A concrete environment: no randomness, RMS estimate 1, zero square root. -/
def env0 : Env := ⟨fun _ _ _ => 0, fun _ => 1, fun _ => 0⟩

/-- An explorer with `cube2` loaded, velocity axis `0, 1` and RMS 1. -/
def eLoaded : Explorer :=
  { Explorer.init with
      data := some cube2
      velax := fun k => (k : ℚ)
      nvel := 2
      rms := 1
      cube_path := some "cube.fits" }

/-- Value of a `generate` result at pixel `(i, j)` (`none` when the call
failed, produced no map, or the pixel is `np.nan`). -/
def resultAt (r : Except GenError (Explorer × Option MomentMap)) (i j : ℕ) : Option ℚ :=
  match r with
  | .ok (_, some m) => m.val i j
  | _ => none

/-! ### Helper lemmas -/

theorem compute_prefix_sums_eq (e : Explorer) (data channel_mask : Cube) (use_mask : Bool) :
    e.compute_prefix_sums data channel_mask use_mask =
      (if cacheHit e (effectiveMask e channel_mask use_mask) then (e, false)
       else ({ e with
          S0 := some (cumsum (data.mul (effectiveMask e channel_mask use_mask)))
          S1 := some (cumsum (velMul e.velax (data.mul (effectiveMask e channel_mask use_mask))))
          prefix_mask := some (effectiveMask e channel_mask use_mask) }, true)) := rfl

theorem compute_prefix_sums_fst_frame (e : Explorer) (data cm : Cube) (um : Bool) :
    ((e.compute_prefix_sums data cm um).1.data = e.data ∧
     (e.compute_prefix_sums data cm um).1.velax = e.velax ∧
     (e.compute_prefix_sums data cm um).1.nvel = e.nvel ∧
     (e.compute_prefix_sums data cm um).1.mask = e.mask ∧
     (e.compute_prefix_sums data cm um).1.rms = e.rms ∧
     (e.compute_prefix_sums data cm um).1.header = e.header ∧
     (e.compute_prefix_sums data cm um).1.cube_path = e.cube_path ∧
     (e.compute_prefix_sums data cm um).1.mask_path = e.mask_path ∧
     (e.compute_prefix_sums data cm um).1.use_prefix_sums = e.use_prefix_sums) := by
  rw [compute_prefix_sums_eq]
  split <;> simp

theorem compute_moment_prefix_fst (e : Explorer) (data : Cube) (moment : String)
    (first last : ℤ) (um : Bool) :
    (e.compute_moment_prefix data moment first last um).1 =
      (e.compute_prefix_sums data (prefixChannelMask data first last) um).1 := by
  unfold Explorer.compute_moment_prefix
  cases h0 : (e.compute_prefix_sums data (prefixChannelMask data first last) um).1.S0 with
  | none => simp [h0]
  | some s0 =>
    cases h1 : (e.compute_prefix_sums data (prefixChannelMask data first last) um).1.S1 with
    | none => simp [h0, h1]
    | some s1 =>
      simp only [h0, h1]
      split
      · rfl
      · split <;> rfl

/-! ### C10: frame condition of `generate` -/

/-- C10: `generate` modifies only `current_moment`, `current_params` and the
prefix-sum cache fields.  For every successful `generate` call, the fields
`data`, `velax` (with its length), `mask`, `rms`, `header`, `cube_path`,
`mask_path` and `use_prefix_sums` are unchanged when it returns. -/
theorem generate_frame (env : Env) (e : Explorer) (moment : String) (first last : ℤ)
    (clip_sigma : ℚ) (use_mask : Bool) (e' : Explorer) (om : Option MomentMap)
    (h : e.generate env moment first last clip_sigma use_mask = .ok (e', om)) :
    e'.data = e.data ∧ e'.velax = e.velax ∧ e'.nvel = e.nvel ∧ e'.mask = e.mask ∧
    e'.rms = e.rms ∧ e'.header = e.header ∧ e'.cube_path = e.cube_path ∧
    e'.mask_path = e.mask_path ∧ e'.use_prefix_sums = e.use_prefix_sums := by
  unfold Explorer.generate at h
  rcases hd : e.data with _ | data
  · rw [hd] at h
    exact absurd h (by simp)
  · rw [hd] at h
    by_cases hp : (e.use_prefix_sums && (moment == "M0" || moment == "M1")) = true
    · simp only [hp, if_true, Except.ok.injEq, Prod.mk.injEq] at h
      obtain ⟨h1, h2⟩ := h
      subst h1
      have hf := compute_prefix_sums_fst_frame e data
        (prefixChannelMask data
          (clampFirst e.nvel first) (clampLast e.nvel (clampFirst e.nvel first) last)) use_mask
      rw [hd] at hf
      dsimp only
      simp only [compute_moment_prefix_fst]
      exact ⟨hf.1, hf.2.1, hf.2.2.1, hf.2.2.2.1, hf.2.2.2.2.1, hf.2.2.2.2.2.1,
        hf.2.2.2.2.2.2.1, hf.2.2.2.2.2.2.2.1, hf.2.2.2.2.2.2.2.2⟩
    · simp only [hp, if_false, Bool.false_eq_true] at h
      rcases hs : e.compute_moment_standard env data moment (clampFirst e.nvel first)
          (clampLast e.nvel (clampFirst e.nvel first) last) clip_sigma use_mask with err | m
      · simp only [hs] at h
        exact absurd h (by simp)
      · simp only [hs, Except.ok.injEq, Prod.mk.injEq] at h
        obtain ⟨h1, h2⟩ := h
        subst h1
        simp

/-- Witness state and map produced by a concrete successful `generate` call
(the standard `'M8'` path on `eLoaded`), used to instantiate `generate_frame`. -/
def eM8Pair : Explorer × Option MomentMap :=
  ({ eLoaded with
      current_moment := some (bm.collapse_eighth eLoaded.velax
        (cube2.mul (bm.get_channel_mask cube2 0 1)) eLoaded.rms)
      current_params := some ⟨"M8", 0, 1, 0, false⟩ },
   some (bm.collapse_eighth eLoaded.velax (cube2.mul (bm.get_channel_mask cube2 0 1)) eLoaded.rms))

theorem generate_frame_witness :
    eM8Pair.1.data = eLoaded.data ∧ eM8Pair.1.velax = eLoaded.velax ∧
    eM8Pair.1.nvel = eLoaded.nvel ∧ eM8Pair.1.mask = eLoaded.mask ∧
    eM8Pair.1.rms = eLoaded.rms ∧ eM8Pair.1.header = eLoaded.header ∧
    eM8Pair.1.cube_path = eLoaded.cube_path ∧ eM8Pair.1.mask_path = eLoaded.mask_path ∧
    eM8Pair.1.use_prefix_sums = eLoaded.use_prefix_sums :=
  generate_frame env0 eLoaded "M8" 0 1 0 false eM8Pair.1 eM8Pair.2 rfl

/-! ### C5: the clamps keep every cache read in bounds -/

/-- C5: `generate` never indexes out of bounds.  On a loaded cube with
`n ≥ 1` channels the clamped channel bounds satisfy
`0 ≤ first' ≤ last' ≤ n - 1`, so the reads `S0[last']`/`S1[last']` and (when
`first' > 0`) `S0[first'-1]`/`S1[first'-1]` of the prefix path target indices
strictly below the channel count of the cached cumulative sums. -/
theorem generate_clamp_in_bounds (e : Explorer) (data : Cube) (first last : ℤ)
    (hd : e.data = some data) (hn : 1 ≤ data.nc) (hv : e.nvel = data.nc) :
    0 ≤ clampFirst e.nvel first ∧
    clampFirst e.nvel first ≤ clampLast e.nvel (clampFirst e.nvel first) last ∧
    clampLast e.nvel (clampFirst e.nvel first) last ≤ (data.nc : ℤ) - 1 ∧
    (clampLast e.nvel (clampFirst e.nvel first) last).toNat < data.nc ∧
    (0 < clampFirst e.nvel first → (clampFirst e.nvel first - 1).toNat < data.nc) := by
  rw [hv]
  unfold clampFirst clampLast
  omega

theorem generate_clamp_in_bounds_witness :
    0 ≤ clampFirst eLoaded.nvel (-3) ∧
    clampFirst eLoaded.nvel (-3) ≤ clampLast eLoaded.nvel (clampFirst eLoaded.nvel (-3)) 7 ∧
    clampLast eLoaded.nvel (clampFirst eLoaded.nvel (-3)) 7 ≤ (cube2.nc : ℤ) - 1 ∧
    (clampLast eLoaded.nvel (clampFirst eLoaded.nvel (-3)) 7).toNat < cube2.nc ∧
    (0 < clampFirst eLoaded.nvel (-3) → (clampFirst eLoaded.nvel (-3) - 1).toNat < cube2.nc) :=
  generate_clamp_in_bounds eLoaded cube2 (-3) 7 rfl (by decide) rfl

/-! ### C9: the prefix-cache invariant is preserved by every public operation -/

theorem prefix_inv_params_update (x : Explorer) (cm : Option MomentMap)
    (cp : Option Params) (h : PrefixInv x) :
    PrefixInv { x with current_moment := cm, current_params := cp } := by
  rcases h with h | ⟨d, pm, h1, h2, h3, h4⟩
  · left; exact h
  · right; exact ⟨d, pm, h1, h2, h3, h4⟩

theorem compute_prefix_sums_inv (e : Explorer) (data cm : Cube) (um : Bool)
    (hd : e.data = some data) (hinv : PrefixInv e) :
    PrefixInv (e.compute_prefix_sums data cm um).1 := by
  rw [compute_prefix_sums_eq]
  split
  · exact hinv
  · right
    exact ⟨data, effectiveMask e cm um, hd, rfl, rfl, rfl⟩

theorem save_fst (e : Explorer) (path : Option String) (o : Option PyError) :
    (e.save path o).1 = e := by
  unfold Explorer.save
  rcases e.current_moment with _ | m
  · rfl
  · rcases e.current_params with _ | p
    · rfl
    · dsimp only
      rcases hmeth : methodMap p.moment with _ | meth
      · rfl
      · rcases o with _ | err
        · rfl
        · dsimp only
          split <;> rfl

/-- C9: prefix-cache consistency is an invariant preserved by every public
operation (`load_cube`, `enable_prefix_sums`, `generate`, `save`): the fields
`_S0`, `_S1`, `_prefix_mask` are all `None` or all set, and when set they are
the channel-axis cumulative sums of `data * _prefix_mask` and of
`velax * data * _prefix_mask` for the currently loaded data and velax. -/
theorem public_ops_preserve_prefix_inv (env : Env) (e : Explorer) (hinv : PrefixInv e) :
    (∀ cp mp file, PrefixInv (e.load_cube env cp mp file)) ∧
    (∀ flag, PrefixInv (e.enable_prefix_sums flag)) ∧
    (∀ moment first last clip_sigma use_mask e' om,
      e.generate env moment first last clip_sigma use_mask = .ok (e', om) →
        PrefixInv e') ∧
    (∀ path bmOutcome, PrefixInv (e.save path bmOutcome).1) := by
  refine ⟨?_, ?_, ?_, ?_⟩
  · intro cp mp file
    left
    exact ⟨rfl, rfl, rfl⟩
  · intro flag
    cases flag
    · left; exact ⟨rfl, rfl, rfl⟩
    · rcases hinv with h | ⟨d, pm, h1, h2, h3, h4⟩
      · left; exact h
      · right; exact ⟨d, pm, h1, h2, h3, h4⟩
  · intro moment first last clip_sigma use_mask e' om h
    unfold Explorer.generate at h
    rcases hd : e.data with _ | data
    · rw [hd] at h
      exact absurd h (by simp)
    · rw [hd] at h
      by_cases hp : (e.use_prefix_sums && (moment == "M0" || moment == "M1")) = true
      · simp only [hp, if_true, Except.ok.injEq, Prod.mk.injEq] at h
        obtain ⟨h1, h2⟩ := h
        subst h1
        apply prefix_inv_params_update
        rw [compute_moment_prefix_fst]
        exact compute_prefix_sums_inv e data _ use_mask hd hinv
      · simp only [hp, if_false, Bool.false_eq_true] at h
        rcases hs : e.compute_moment_standard env data moment (clampFirst e.nvel first)
            (clampLast e.nvel (clampFirst e.nvel first) last) clip_sigma use_mask with err | m
        · simp only [hs] at h
          exact absurd h (by simp)
        · simp only [hs, Except.ok.injEq, Prod.mk.injEq] at h
          obtain ⟨h1, h2⟩ := h
          subst h1
          have h' := prefix_inv_params_update e (some m)
            (some (Params.mk moment (clampFirst e.nvel first)
              (clampLast e.nvel (clampFirst e.nvel first) last) clip_sigma use_mask)) hinv
          rw [hd] at h'
          exact h'
  · intro path bmOutcome
    rw [save_fst]
    exact hinv

theorem public_ops_preserve_prefix_inv_witness :
    PrefixInv (eLoaded.enable_prefix_sums true) :=
  (public_ops_preserve_prefix_inv env0 eLoaded (Or.inl ⟨rfl, rfl, rfl⟩)).2.1 true

/-! ### C6: exactly the four moment strings are supported -/

/-- C6: on a loaded cube, `generate` succeeds for each of the four moment
strings `'M0'`, `'M1'`, `'M8'`, `'M9'` and raises `ValueError` for every other
moment string, regardless of the remaining arguments and of whether the
prefix-sum optimization is enabled. -/
theorem generate_moment_dispatch (env : Env) (e : Explorer) (data : Cube)
    (hd : e.data = some data) (moment : String) (first last : ℤ) (clip_sigma : ℚ)
    (use_mask : Bool) :
    ((moment = "M0" ∨ moment = "M1" ∨ moment = "M8" ∨ moment = "M9") →
      ∃ e' om, e.generate env moment first last clip_sigma use_mask = .ok (e', om)) ∧
    (moment ≠ "M0" → moment ≠ "M1" → moment ≠ "M8" → moment ≠ "M9" →
      e.generate env moment first last clip_sigma use_mask = .error .valueError) := by
  constructor
  · rintro (rfl | rfl | rfl | rfl) <;>
      · unfold Explorer.generate
        rw [hd]
        by_cases hp : e.use_prefix_sums <;>
          simp [hp, Explorer.compute_moment_standard]
  · intro h0 h1 h8 h9
    unfold Explorer.generate
    rw [hd]
    have b0 : (moment == "M0") = false := beq_eq_false_iff_ne.mpr h0
    have b1 : (moment == "M1") = false := beq_eq_false_iff_ne.mpr h1
    simp [b0, b1, Explorer.compute_moment_standard, h0, h1, h8, h9]

theorem generate_moment_dispatch_witness :
    eLoaded.generate env0 "M7" 0 1 0 false = .error .valueError :=
  (generate_moment_dispatch env0 eLoaded cube2 rfl "M7" 0 1 0 false).2
    (by decide) (by decide) (by decide) (by decide)

/-! ### C1: the prefix-sum path does not coincide with the standard path -/

/-- C1 counterexample: on a 2-channel cube of ones with `velax = (0, 1)`,
`generate('M0', 0, 1)` returns `2.0` through the prefix-sum path (plain
range sum times the channel width) but `1.0` through the standard
bettermoments path (`collapse_zeroth` integrates with the trapezium rule,
which half-weights the edge channels), so the two paths differ. -/
theorem prefix_vs_standard_M0_counterexample :
    resultAt ((eLoaded.enable_prefix_sums true).generate env0 "M0" 0 1 0 false) 0 0 =
      some 2 ∧
    resultAt ((eLoaded.enable_prefix_sums false).generate env0 "M0" 0 1 0 false) 0 0 =
      some 1 := by
  have hcard : (Finset.filter (fun x => x < 2) (Finset.range 2)).card = 2 := rfl
  constructor <;>
    norm_num [hcard, resultAt, Explorer.generate, Explorer.enable_prefix_sums, eLoaded, cube2,
      env0, Explorer.init, clampFirst, clampLast, Explorer.compute_moment_prefix,
      Explorer.compute_prefix_sums, cacheHit, effectiveMask, arrayEqualOpt,
      prefixChannelMask, cumsum, Cube.mul, Cube.mulFun, velMul,
      Explorer.compute_moment_standard, standardMaskedData, bm.collapse_zeroth, trapzChan,
      meanChannelWidth, bm.get_channel_mask, bm.get_threshold_mask, Finset.sum_range_succ,
      min_def, max_def]

/-! ### C2: the cache is invalidated by every change of channel range -/

/-- C2 bug exhibit: after `generate('M0', 0, 0)` has filled the prefix-sum
cache, the very next query over the different range `[0, 1]` recomputes the
cumulative sums from scratch (the ghost recompute flag of
`_compute_prefix_sums` is `true`), because the cache key — the effective
mask — embeds the channel range itself.  The O(N) precomputation is thus
redone for every new range instead of being reused in O(1). -/
theorem prefix_cache_recomputes_on_range_change :
    ((eLoaded.enable_prefix_sums true).generate env0 "M0" 0 0 0 false).map
      (fun p => (p.1.compute_prefix_sums cube2 (prefixChannelMask cube2 0 1) false).2) =
    .ok true := by
  rfl

/-! ### C3: the prefix path implements masking of its own -/

/-- Modelled from the spec: "every other moment type and all masking/clipping
logic is delegated to an external library (bettermoments)".  Under that
reading, the prefix-path M1 over a channel range is the velocity centroid of
the data under the bettermoments-produced channel mask (times the user mask
when requested), with no further in-repo cutoff. -/
def delegatedPrefixM1 (e : Explorer) (data : Cube) (first last : ℤ)
    (use_mask : Bool) : MomentMap :=
  let md := data.mul (effectiveMask e (bm.get_channel_mask data first last) use_mask)
  ⟨data.ny, data.nx, fun i j =>
    some ((∑ k in Finset.range data.nc, e.velax k * md.val k i j) /
          ((∑ k in Finset.range data.nc, md.val k i j) + 1 / 10 ^ 12))⟩

/-- C3 counterexample: with all-positive data, the default all-ones mask and
the full channel range, the bettermoments masks remove nothing, yet the
prefix path returns `np.nan` for M1 at pixel `(0,0)` — its own in-repo
`M0 < 3·rms` cutoff fires — while the fully delegated computation returns a
finite centroid.  Masking is therefore not all delegated to bettermoments. -/
theorem prefix_M1_not_delegated_counterexample :
    resultAt ((eLoaded.enable_prefix_sums true).generate env0 "M1" 0 1 0 false) 0 0 =
      none ∧
    (delegatedPrefixM1 eLoaded cube2 0 1 false).val 0 0 ≠ none := by
  have h10 : ("M1" : String) ≠ "M0" := by decide
  have hcard : (Finset.filter (fun x => x < 2) (Finset.range 2)).card = 2 := rfl
  constructor
  · norm_num [h10, hcard, resultAt, Explorer.generate, Explorer.enable_prefix_sums,
      eLoaded, cube2, env0, Explorer.init, clampFirst, clampLast,
      Explorer.compute_moment_prefix, Explorer.compute_prefix_sums, cacheHit,
      effectiveMask, arrayEqualOpt, prefixChannelMask, cumsum, Cube.mul, Cube.mulFun,
      velMul, Finset.sum_range_succ, min_def, max_def]
  · simp [delegatedPrefixM1]

/-! ### C4: `save` does fall back to writing the file itself -/

/-- An explorer holding a computed moment map, ready for `save`. -/
def eSaved : Explorer :=
  { eLoaded with
      current_moment := some ⟨1, 1, fun _ _ => some 0⟩
      current_params := some ⟨"M0", 0, 1, 0, false⟩ }

/-- C4 counterexample: when the bettermoments save call raises `ValueError`,
`save` does not merely surface the error — it writes the output file itself
through the astropy fallback branch, at `output_path`. -/
theorem save_fallback_counterexample :
    (eSaved.save (some "out.fits") (some PyError.valueError)).2 =
      SaveOutcome.selfSaved "out.fits" := by
  rfl

/-- C4 (amended): `save` catches exactly `ValueError`, `TypeError` and
`AttributeError` from `bm.save_to_FITS`; on any of those it writes the file
itself via astropy at `output_path` (the explicit `path` if given, else the
cube-derived one); any other exception propagates; when the bettermoments
call succeeds there is no self-write and the cube-derived path is returned. -/
theorem save_fallback_behavior (e : Explorer) (path : Option String)
    (bmOutcome : Option PyError) (p : Params)
    (hm : e.current_moment.isSome = true) (hp : e.current_params = some p)
    (hmeth : (methodMap p.moment).isSome = true) :
    (∀ err, bmOutcome = some err → err ≠ PyError.other →
      (e.save path bmOutcome).2 =
        SaveOutcome.selfSaved (path.getD (replaceFits (e.cube_path.getD "") p.moment))) ∧
    (bmOutcome = some PyError.other →
      (e.save path bmOutcome).2 = SaveOutcome.raised PyError.other) ∧
    (bmOutcome = none →
      (e.save path bmOutcome).2 =
        SaveOutcome.bmSaved (replaceFits (e.cube_path.getD "") p.moment)) := by
  rcases hcm : e.current_moment with _ | m
  · rw [hcm] at hm
    exact absurd hm (by simp)
  · unfold Explorer.save
    rw [hcm, hp]
    dsimp only
    rcases hme : methodMap p.moment with _ | meth
    · rw [hme] at hmeth
      exact absurd hmeth (by simp)
    · refine ⟨?_, ?_, ?_⟩
      · rintro err rfl hne
        cases err <;> simp_all
      · rintro rfl
        simp
      · rintro rfl
        rfl

theorem save_fallback_behavior_witness :
    (eSaved.save none (some PyError.typeError)).2 =
      SaveOutcome.selfSaved
        (Option.getD none (replaceFits (eSaved.cube_path.getD "") "M0")) :=
  (save_fallback_behavior eSaved none (some PyError.typeError)
    (Params.mk "M0" 0 1 0 false) rfl rfl rfl).1 PyError.typeError rfl (by decide)

/-! ### C7: the all-ones default mask has no effect -/

theorem mulFun_of_one (a : Cube) (m : ℕ → ℕ → ℕ → ℚ) (hm : ∀ k i j, m k i j = 1) :
    a.mulFun m = a := by
  cases a with
  | mk nc ny nx v =>
    unfold Cube.mulFun
    simp only [Cube.mk.injEq, true_and]
    funext k i j
    rw [hm, mul_one]

theorem effectiveMask_of_one (e : Explorer) (cm : Cube) (um : Bool)
    (hm : ∀ k i j, e.mask k i j = 1) : effectiveMask e cm um = cm := by
  cases um
  · rfl
  · exact mulFun_of_one cm e.mask hm

theorem compute_prefix_sums_mask_one (e : Explorer) (data cm : Cube)
    (hm : ∀ k i j, e.mask k i j = 1) :
    e.compute_prefix_sums data cm true = e.compute_prefix_sums data cm false := by
  unfold Explorer.compute_prefix_sums
  rw [effectiveMask_of_one e cm true hm, effectiveMask_of_one e cm false hm]

theorem compute_moment_prefix_mask_one (e : Explorer) (data : Cube) (moment : String)
    (first last : ℤ) (hm : ∀ k i j, e.mask k i j = 1) :
    e.compute_moment_prefix data moment first last true =
      e.compute_moment_prefix data moment first last false := by
  unfold Explorer.compute_moment_prefix
  dsimp only
  rw [compute_prefix_sums_mask_one e data (prefixChannelMask data first last) hm]

theorem standardMaskedData_mask_one (env : Env) (e : Explorer) (data : Cube)
    (moment : String) (first last : ℤ) (clip_sigma : ℚ)
    (hm : ∀ k i j, e.mask k i j = 1) :
    standardMaskedData env e data moment first last clip_sigma true =
      standardMaskedData env e data moment first last clip_sigma false := by
  unfold standardMaskedData
  dsimp only
  rw [mulFun_of_one (data.mul (bm.get_channel_mask data first last)) e.mask hm]
  simp

theorem compute_moment_standard_mask_one (env : Env) (e : Explorer) (data : Cube)
    (moment : String) (first last : ℤ) (clip_sigma : ℚ)
    (hm : ∀ k i j, e.mask k i j = 1) :
    e.compute_moment_standard env data moment first last clip_sigma true =
      e.compute_moment_standard env data moment first last clip_sigma false := by
  unfold Explorer.compute_moment_standard
  rw [standardMaskedData_mask_one env e data moment first last clip_sigma hm]

/-- C7: the mask is optional.  `load_cube` with `mask_path=None` installs an
all-ones mask, and on any explorer whose mask is all ones every `generate`
call returns exactly the same moment map with `use_mask=True` as with
`use_mask=False`, in the prefix-sum path and the standard path alike. -/
theorem generate_mask_optional (env : Env) :
    (∀ e cp file, (Explorer.load_cube env e cp none file).mask = fun _ _ _ => 1) ∧
    (∀ e : Explorer, (∀ k i j, e.mask k i j = 1) →
      ∀ moment first last clip_sigma,
        (e.generate env moment first last clip_sigma true).map Prod.snd =
          (e.generate env moment first last clip_sigma false).map Prod.snd) := by
  constructor
  · intro e cp file
    rfl
  · intro e hm moment first last clip_sigma
    unfold Explorer.generate
    rcases hd : e.data with _ | data
    · rfl
    · dsimp only
      by_cases hp : (e.use_prefix_sums && (moment == "M0" || moment == "M1")) = true
      · simp only [hp, if_true]
        rw [compute_moment_prefix_mask_one e data moment _ _ hm]
        simp [Except.map]
      · simp only [hp, if_false, Bool.false_eq_true]
        rw [compute_moment_standard_mask_one env e data moment _ _ clip_sigma hm]
        rcases hs : e.compute_moment_standard env data moment (clampFirst e.nvel first)
            (clampLast e.nvel (clampFirst e.nvel first) last) clip_sigma false with err | m <;>
          simp [hs, Except.map]

theorem generate_mask_optional_witness :
    (eLoaded.generate env0 "M0" 0 1 (1 / 2) true).map Prod.snd =
      (eLoaded.generate env0 "M0" 0 1 (1 / 2) false).map Prod.snd :=
  (generate_mask_optional env0).2 eLoaded (fun _ _ _ => rfl) "M0" 0 1 (1 / 2)

/-! ### C8: every returned moment map has the spatial shape of the cube -/

theorem compute_prefix_sums_S0_S1 (e : Explorer) (data cm : Cube) (um : Bool)
    (hd : e.data = some data) (hinv : PrefixInv e) :
    ∃ pm, (e.compute_prefix_sums data cm um).1.S0 = some (cumsum (data.mul pm)) ∧
      (e.compute_prefix_sums data cm um).1.S1 =
        some (cumsum (velMul e.velax (data.mul pm))) := by
  rw [compute_prefix_sums_eq]
  split
  · rename_i hhit
    rcases hinv with ⟨h0, h1, h2⟩ | ⟨data', pm, hd', hpm, hS0, hS1⟩
    · unfold cacheHit at hhit
      rw [h0] at hhit
      simp at hhit
    · rw [hd] at hd'
      injection hd' with hdd
      subst hdd
      exact ⟨pm, hS0, hS1⟩
  · exact ⟨effectiveMask e cm um, rfl, rfl⟩

theorem compute_moment_prefix_shape (e : Explorer) (data : Cube) (moment : String)
    (first last : ℤ) (um : Bool) (hd : e.data = some data) (hinv : PrefixInv e)
    (m : MomentMap)
    (hm : (e.compute_moment_prefix data moment first last um).2 = some m) :
    m.ny = data.ny ∧ m.nx = data.nx := by
  obtain ⟨pm, hS0, hS1⟩ :=
    compute_prefix_sums_S0_S1 e data (prefixChannelMask data first last) um hd hinv
  unfold Explorer.compute_moment_prefix at hm
  simp only [hS0, hS1] at hm
  split at hm
  · simp only [Option.some.injEq] at hm
    subst hm
    exact ⟨rfl, rfl⟩
  · split at hm
    · simp only [Option.some.injEq] at hm
      subst hm
      exact ⟨rfl, rfl⟩
    · simp at hm

theorem standardMaskedData_shape (env : Env) (e : Explorer) (data : Cube)
    (moment : String) (first last : ℤ) (clip_sigma : ℚ) (um : Bool) :
    (standardMaskedData env e data moment first last clip_sigma um).ny = data.ny ∧
      (standardMaskedData env e data moment first last clip_sigma um).nx = data.nx := by
  unfold standardMaskedData
  split
  · split <;> exact ⟨rfl, rfl⟩
  · exact ⟨rfl, rfl⟩

theorem compute_moment_standard_shape (env : Env) (e : Explorer) (data : Cube)
    (moment : String) (first last : ℤ) (clip_sigma : ℚ) (um : Bool) (m : MomentMap)
    (hs : e.compute_moment_standard env data moment first last clip_sigma um = .ok m) :
    m.ny = data.ny ∧ m.nx = data.nx := by
  have hmd := standardMaskedData_shape env e data moment first last clip_sigma um
  unfold Explorer.compute_moment_standard at hs
  split at hs
  · simp only [Except.ok.injEq] at hs
    subst hs
    exact hmd
  · split at hs
    · simp only [Except.ok.injEq] at hs
      subst hs
      exact hmd
    · split at hs
      · simp only [Except.ok.injEq] at hs
        subst hs
        exact hmd
      · split at hs
        · simp only [Except.ok.injEq] at hs
          subst hs
          exact hmd
        · simp at hs

/-- C8: every moment map returned by a successful `generate` call on a cube of
shape `(nchan, ny, nx)` is a 2-D collapsed map of shape `(ny, nx)`, for every
moment type, channel range, and both the prefix-sum and the standard path. -/
theorem generate_map_shape (env : Env) (e : Explorer) (data : Cube)
    (hd : e.data = some data) (hinv : PrefixInv e) (moment : String)
    (first last : ℤ) (clip_sigma : ℚ) (um : Bool) (e' : Explorer)
    (om : Option MomentMap) (m : MomentMap)
    (h : e.generate env moment first last clip_sigma um = .ok (e', om))
    (hom : om = some m) :
    m.ny = data.ny ∧ m.nx = data.nx := by
  subst hom
  unfold Explorer.generate at h
  rw [hd] at h
  by_cases hp : (e.use_prefix_sums && (moment == "M0" || moment == "M1")) = true
  · simp only [hp, if_true, Except.ok.injEq, Prod.mk.injEq] at h
    exact compute_moment_prefix_shape e data moment _ _ um hd hinv m h.2
  · simp only [hp, if_false, Bool.false_eq_true] at h
    rcases hs : e.compute_moment_standard env data moment (clampFirst e.nvel first)
        (clampLast e.nvel (clampFirst e.nvel first) last) clip_sigma um with err | m0
    · simp only [hs] at h
      exact absurd h (by simp)
    · simp only [hs, Except.ok.injEq, Prod.mk.injEq] at h
      obtain ⟨h1, h2⟩ := h
      rw [Option.some_inj] at h2
      subst h2
      exact compute_moment_standard_shape env e data moment _ _ clip_sigma um _ hs

theorem generate_map_shape_witness :
    (bm.collapse_eighth eLoaded.velax
        (cube2.mul (bm.get_channel_mask cube2 0 1)) eLoaded.rms).ny = cube2.ny ∧
      (bm.collapse_eighth eLoaded.velax
        (cube2.mul (bm.get_channel_mask cube2 0 1)) eLoaded.rms).nx = cube2.nx :=
  generate_map_shape env0 eLoaded cube2 rfl (Or.inl ⟨rfl, rfl, rfl⟩) "M8" 0 1 0 false
    eM8Pair.1 eM8Pair.2 _ rfl rfl

/-! ### Arithmetic lemmas for the prefix-sum extraction and the trapezium rule -/

theorem sum_range_trapz (g : ℕ → ℚ) (n : ℕ) (hn : 1 ≤ n) :
    ∑ k in Finset.range (n - 1), (g k + g (k + 1)) / 2 =
      (∑ k in Finset.range n, g k) - (g 0 + g (n - 1)) / 2 := by
  obtain ⟨p, rfl⟩ : ∃ p, n = p + 1 := ⟨n - 1, by omega⟩
  simp only [Nat.add_sub_cancel]
  have h1 : ∑ k in Finset.range (p + 1), g k = (∑ k in Finset.range p, g (k + 1)) + g 0 :=
    Finset.sum_range_succ' g p
  have h2 : ∑ k in Finset.range (p + 1), g k = (∑ k in Finset.range p, g k) + g p :=
    Finset.sum_range_succ g p
  rw [← Finset.sum_div, Finset.sum_add_distrib]
  linarith [h1, h2]

theorem cumsum_range_extract (c : Cube) (first last : ℤ) (i j : ℕ)
    (h0 : 0 ≤ first) (hfl : first ≤ last) (hl : last < (c.nc : ℤ))
    (hz : ∀ t : ℕ, ¬(first ≤ (t : ℤ) ∧ (t : ℤ) ≤ last) → c.val t i j = 0) :
    (if first = 0 then (cumsum c).val last.toNat i j
     else (cumsum c).val last.toNat i j - (cumsum c).val (first - 1).toNat i j) =
      ∑ k in Finset.range c.nc, c.val k i j := by
  have hsub : Finset.range (last.toNat + 1) ⊆ Finset.range c.nc := by
    intro x hx
    simp only [Finset.mem_range] at hx ⊢
    omega
  have hout : ∀ x ∈ Finset.range c.nc, x ∉ Finset.range (last.toNat + 1) →
      c.val x i j = 0 := by
    intro x hx hnx
    apply hz
    simp only [Finset.mem_range] at hx hnx
    omega
  by_cases hf0 : first = 0
  · rw [if_pos hf0]
    exact Finset.sum_subset hsub hout
  · rw [if_neg hf0]
    have hft : (first - 1).toNat + 1 = first.toNat := by omega
    have hle : first.toNat ≤ last.toNat + 1 := by omega
    have hIco : ∑ k in Finset.Ico first.toNat (last.toNat + 1), c.val k i j =
        (∑ k in Finset.range (last.toNat + 1), c.val k i j) -
          ∑ k in Finset.range first.toNat, c.val k i j :=
      Finset.sum_Ico_eq_sub _ hle
    have hIco_sub : Finset.Ico first.toNat (last.toNat + 1) ⊆ Finset.range c.nc := by
      intro x hx
      simp only [Finset.mem_Ico] at hx
      simp only [Finset.mem_range]
      omega
    have hIco_out : ∀ x ∈ Finset.range c.nc, x ∉ Finset.Ico first.toNat (last.toNat + 1) →
        c.val x i j = 0 := by
      intro x hx hnx
      simp only [Finset.mem_Ico] at hnx
      push_neg at hnx
      simp only [Finset.mem_range] at hx
      apply hz
      omega
    have hfin := Finset.sum_subset hIco_sub hIco_out
    calc (cumsum c).val last.toNat i j - (cumsum c).val (first - 1).toNat i j
        = (∑ k in Finset.range (last.toNat + 1), c.val k i j) -
            ∑ k in Finset.range ((first - 1).toNat + 1), c.val k i j := rfl
      _ = (∑ k in Finset.range (last.toNat + 1), c.val k i j) -
            ∑ k in Finset.range first.toNat, c.val k i j := by rw [hft]
      _ = ∑ k in Finset.Ico first.toNat (last.toNat + 1), c.val k i j := hIco.symm
      _ = ∑ k in Finset.range c.nc, c.val k i j := hfin

/-- When the wanted last channel is non-negative, the channel mask the prefix
path builds by slice assignment coincides with the bettermoments one. -/
theorem prefixChannelMask_eq_bm (data : Cube) (first last : ℤ) (hl : 0 ≤ last) :
    prefixChannelMask data first last = bm.get_channel_mask data first last := by
  unfold prefixChannelMask bm.get_channel_mask
  dsimp only
  rw [if_neg (not_lt.mpr hl)]
  congr 1
  funext k i j
  congr 1
  simp [Int.lt_add_one_iff]

/-- The prefix-path masked data vanishes outside the channel range. -/
theorem prefixMasked_vanish (e : Explorer) (data : Cube) (first last : ℤ) (um : Bool)
    (t i j : ℕ) (ht : ¬(first ≤ (t : ℤ) ∧ (t : ℤ) ≤ last)) :
    (data.mul (effectiveMask e (prefixChannelMask data first last) um)).val t i j = 0 := by
  cases um
  case false =>
    show data.val t i j * (if first ≤ (t : ℤ) ∧ (t : ℤ) < last + 1 then (1 : ℚ) else 0) = 0
    rw [if_neg (by rw [Int.lt_add_one_iff]; exact ht)]
    ring
  case true =>
    show data.val t i j *
        ((if first ≤ (t : ℤ) ∧ (t : ℤ) < last + 1 then (1 : ℚ) else 0) * e.mask t i j) = 0
    rw [if_neg (by rw [Int.lt_add_one_iff]; exact ht)]
    ring

theorem velMul_vanish (v : ℕ → ℚ) (c : Cube) (t i j : ℕ) (hc : c.val t i j = 0) :
    (velMul v c).val t i j = 0 := by
  show v t * c.val t i j = 0
  rw [hc, mul_zero]

theorem mul_mulFun_assoc (a b : Cube) (m : ℕ → ℕ → ℕ → ℚ) :
    (a.mul b).mulFun m = a.mul (b.mulFun m) := by
  unfold Cube.mul Cube.mulFun
  dsimp only
  congr 1
  funext k i j
  ring

/-- For `'M0'` (with a non-negative range) the standard path masks the data
with exactly the same effective mask as the prefix path. -/
theorem standardMaskedData_M0_eq (env : Env) (e : Explorer) (data : Cube)
    (first last : ℤ) (clip_sigma : ℚ) (um : Bool) (hl : 0 ≤ last) :
    standardMaskedData env e data "M0" first last clip_sigma um =
      data.mul (effectiveMask e (prefixChannelMask data first last) um) := by
  unfold standardMaskedData effectiveMask
  rw [prefixChannelMask_eq_bm data first last hl]
  cases um
  · simp
  · simp only [if_true]
    rw [if_pos (by simp)]
    exact mul_mulFun_assoc data (bm.get_channel_mask data first last) e.mask

theorem meanChannelWidth_uniform (v : ℕ → ℚ) (n : ℕ) (v0 dv : ℚ)
    (hu : ∀ k, v k = v0 + k * dv) (hn : 2 ≤ n) :
    meanChannelWidth v n = dv := by
  unfold meanChannelWidth
  have hstep : ∀ k ∈ Finset.range (n - 1), v (k + 1) - v k = dv := by
    intro k _
    rw [hu (k + 1), hu k]
    push_cast
    ring
  rw [Finset.sum_congr rfl hstep, Finset.sum_const, Finset.card_range, nsmul_eq_mul]
  have hne : ((n : ℚ) - 1) ≠ 0 := by
    have h2 : (2 : ℚ) ≤ (n : ℚ) := by exact_mod_cast hn
    linarith
  rw [Nat.cast_sub (by omega : 1 ≤ n), Nat.cast_one, mul_comm, mul_div_assoc,
    div_self hne, mul_one]

/-! ### Characterizing the two `'M0'` paths -/

theorem compute_prefix_sums_fresh (e : Explorer) (data cm : Cube) (um : Bool)
    (hS0 : e.S0 = none) :
    e.compute_prefix_sums data cm um =
      ({ e with
          S0 := some (cumsum (data.mul (effectiveMask e cm um)))
          S1 := some (cumsum (velMul e.velax (data.mul (effectiveMask e cm um))))
          prefix_mask := some (effectiveMask e cm um) }, true) := by
  rw [compute_prefix_sums_eq, if_neg]
  unfold cacheHit
  rw [hS0]
  simp

/-- The map the prefix path produces for `'M0'` on a fresh cache. -/
def prefixM0Map (e : Explorer) (data : Cube) (first last : ℤ) (um : Bool) : MomentMap :=
  let md := data.mul (effectiveMask e (prefixChannelMask data first last) um)
  ⟨data.ny, data.nx, fun i j =>
    some ((if first = 0 then (cumsum md).val last.toNat i j
      else (cumsum md).val last.toNat i j - (cumsum md).val (first - 1).toNat i j) *
      |e.velax 1 - e.velax 0|)⟩

theorem compute_moment_prefix_M0_fresh (e : Explorer) (data : Cube) (first last : ℤ)
    (um : Bool) (hS0 : e.S0 = none) :
    (e.compute_moment_prefix data "M0" first last um).2 =
      some (prefixM0Map e data first last um) := by
  unfold Explorer.compute_moment_prefix
  dsimp only
  rw [compute_prefix_sums_fresh e data (prefixChannelMask data first last) um hS0]
  simp only [eq_self_iff_true, if_true]
  rfl

theorem compute_moment_standard_M0 (env : Env) (e : Explorer) (data : Cube)
    (first last : ℤ) (clip_sigma : ℚ) (um : Bool) :
    e.compute_moment_standard env data "M0" first last clip_sigma um =
      .ok (bm.collapse_zeroth e.velax
        (standardMaskedData env e data "M0" first last clip_sigma um) e.rms) := by
  unfold Explorer.compute_moment_standard
  simp

theorem prefixM0Map_eq_collapse (env : Env) (e : Explorer) (data : Cube) (v0 dv : ℚ)
    (first last : ℤ) (clip_sigma : ℚ) (um : Bool)
    (hu : ∀ k, e.velax k = v0 + k * dv)
    (h0 : 0 < first) (hfl : first ≤ last) (hl : last < (data.nc : ℤ) - 1) :
    prefixM0Map e data first last um =
      bm.collapse_zeroth e.velax
        (standardMaskedData env e data "M0" first last clip_sigma um) e.rms := by
  have hl0 : 0 ≤ last := by omega
  rw [standardMaskedData_M0_eq env e data first last clip_sigma um hl0]
  unfold prefixM0Map bm.collapse_zeroth
  dsimp only
  congr 1
  funext i j
  congr 1
  have hdv : e.velax 1 - e.velax 0 = dv := by
    rw [hu 1, hu 0]
    push_cast
    ring
  have hz : ∀ t : ℕ, ¬(first ≤ (t : ℤ) ∧ (t : ℤ) ≤ last) →
      (data.mul (effectiveMask e (prefixChannelMask data first last) um)).val t i j = 0 :=
    fun t ht => prefixMasked_vanish e data first last um t i j ht
  have hD := cumsum_range_extract
    (data.mul (effectiveMask e (prefixChannelMask data first last) um)) first last i j
    (le_of_lt h0) hfl (by show last < (data.nc : ℤ); omega) hz
  rw [hD]
  unfold trapzChan
  rw [show (data.mul (effectiveMask e (prefixChannelMask data first last) um)).nc =
      data.nc from rfl]
  rw [sum_range_trapz
      (fun k => (data.mul (effectiveMask e (prefixChannelMask data first last) um)).val k i j)
      data.nc (by omega)]
  rw [hz 0 (by omega), hz (data.nc - 1) (by push_cast; omega)]
  rw [meanChannelWidth_uniform e.velax data.nc v0 dv hu (by omega)]
  rw [hdv]
  ring

/-- C1 (amended): the prefix-sum and standard paths agree for M0 exactly on
interior channel ranges.  On a loaded cube with a uniform velocity axis and a
fresh cache, whenever the clamped range satisfies `0 < first'` and
`last' < nchan - 1` (so that the trapezium rule of
`bettermoments.collapse_zeroth` sees zero at both edge channels), `generate`
with prefix sums enabled returns the same M0 map as with them disabled.  (The
original claim fails: at ranges touching either end of the cube the two M0
maps differ — see the counterexample — and the M1 maps differ in general
because the two paths apply different masks and weightings.) -/
theorem generate_prefix_standard_M0_agree (env : Env) (e : Explorer) (data : Cube)
    (v0 dv : ℚ) (first last : ℤ) (clip_sigma : ℚ) (um : Bool)
    (hd : e.data = some data) (hnv : e.nvel = data.nc)
    (hu : ∀ k, e.velax k = v0 + k * dv) (hS0 : e.S0 = none)
    (hf : 0 < clampFirst e.nvel first)
    (hl : clampLast e.nvel (clampFirst e.nvel first) last < (e.nvel : ℤ) - 1) :
    ((e.enable_prefix_sums true).generate env "M0" first last clip_sigma um).map
        Prod.snd =
      ((e.enable_prefix_sums false).generate env "M0" first last clip_sigma um).map
        Prod.snd := by
  have hfl : clampFirst e.nvel first ≤ clampLast e.nvel (clampFirst e.nvel first) last := by
    unfold clampLast
    exact le_max_left _ _
  have hl' : clampLast e.nvel (clampFirst e.nvel first) last < (data.nc : ℤ) - 1 := by
    rw [← hnv]
    exact hl
  have hd1 : (e.enable_prefix_sums true).data = some data := hd
  have hd0 : (e.enable_prefix_sums false).data = some data := hd
  unfold Explorer.generate
  rw [hd1, hd0]
  dsimp only
  rw [show (e.enable_prefix_sums true).nvel = e.nvel from rfl,
    show (e.enable_prefix_sums false).nvel = e.nvel from rfl]
  rw [if_pos (show ((e.enable_prefix_sums true).use_prefix_sums &&
      ("M0" == "M0" || "M0" == "M1")) = true from rfl)]
  have hneg : ¬(((e.enable_prefix_sums false).use_prefix_sums &&
      ("M0" == "M0" || "M0" == "M1")) = true) := by
    rw [show (e.enable_prefix_sums false).use_prefix_sums = false from rfl]
    simp
  rw [if_neg hneg]
  rw [compute_moment_standard_M0 env (e.enable_prefix_sums false) data _ _ clip_sigma um]
  simp only [Except.map]
  rw [compute_moment_prefix_M0_fresh (e.enable_prefix_sums true) data _ _ um
    (show (e.enable_prefix_sums true).S0 = none from hS0)]
  show (Except.ok (some (prefixM0Map e data (clampFirst e.nvel first)
      (clampLast e.nvel (clampFirst e.nvel first) last) um)) :
        Except GenError (Option MomentMap)) =
    Except.ok (some (bm.collapse_zeroth e.velax
      (standardMaskedData env e data "M0" (clampFirst e.nvel first)
        (clampLast e.nvel (clampFirst e.nvel first) last) clip_sigma um) e.rms))
  exact congrArg (fun x => Except.ok (some x))
    (prefixM0Map_eq_collapse env e data v0 dv _ _ clip_sigma um hu hf hfl hl')

/-- A 4-channel concrete cube and explorer for the interior-range witness. -/
def cube4 : Cube := ⟨4, 1, 1, fun _ _ _ => 1⟩

def eLoaded4 : Explorer :=
  { Explorer.init with
      data := some cube4
      velax := fun _ => 5
      nvel := 4
      rms := 1
      cube_path := some "c.fits" }

theorem generate_prefix_standard_M0_agree_witness :
    ((eLoaded4.enable_prefix_sums true).generate env0 "M0" 1 2 0 false).map Prod.snd =
      ((eLoaded4.enable_prefix_sums false).generate env0 "M0" 1 2 0 false).map
        Prod.snd :=
  generate_prefix_standard_M0_agree env0 eLoaded4 cube4 5 0 1 2 0 false rfl rfl
    (fun k => by show (5 : ℚ) = 5 + k * 0; simp) rfl (by decide) (by decide)

/-! ### Characterizing the prefix path for M1 (C3 amended) -/

/-- The map the prefix path produces for `'M1'` on a fresh cache. -/
def prefixM1Map (e : Explorer) (data : Cube) (first last : ℤ) (um : Bool) : MomentMap :=
  let md := data.mul (effectiveMask e (prefixChannelMask data first last) um)
  ⟨data.ny, data.nx, fun i j =>
    if (if first = 0 then (cumsum md).val last.toNat i j
        else (cumsum md).val last.toNat i j - (cumsum md).val (first - 1).toNat i j) <
        3 * e.rms then none
    else some ((if first = 0 then (cumsum (velMul e.velax md)).val last.toNat i j
        else (cumsum (velMul e.velax md)).val last.toNat i j -
          (cumsum (velMul e.velax md)).val (first - 1).toNat i j) /
      ((if first = 0 then (cumsum md).val last.toNat i j
        else (cumsum md).val last.toNat i j - (cumsum md).val (first - 1).toNat i j) +
        1 / 10 ^ 12))⟩

theorem compute_moment_prefix_M1_fresh (e : Explorer) (data : Cube) (first last : ℤ)
    (um : Bool) (hS0 : e.S0 = none) :
    (e.compute_moment_prefix data "M1" first last um).2 =
      some (prefixM1Map e data first last um) := by
  have h10 : ¬(("M1" : String) = "M0") := by decide
  unfold Explorer.compute_moment_prefix
  dsimp only
  rw [compute_prefix_sums_fresh e data (prefixChannelMask data first last) um hS0]
  simp only [h10, if_false, eq_self_iff_true, if_true]
  rfl

/-- C3 (amended): the standard path delegates its masks to bettermoments, and
the prefix path's own channel mask is pointwise the bettermoments one; but the
prefix path's M1 additionally applies its own in-repo threshold: its result is
exactly the fully delegated centroid masked to `np.nan` wherever the
bettermoments-masked channel sum falls below `3·rms` (a cutoff no
bettermoments mask produces, and one that ignores `clip_sigma`). -/
theorem prefix_masking_characterization (e : Explorer) (data : Cube) (first last : ℤ)
    (um : Bool) (h0 : 0 ≤ first) (hfl : first ≤ last) (hl : last < (data.nc : ℤ))
    (hS0 : e.S0 = none) :
    (∀ k i j, (prefixChannelMask data first last).val k i j =
        (bm.get_channel_mask data first last).val k i j) ∧
    (∀ i j,
      ((e.compute_moment_prefix data "M1" first last um).2.bind fun m => m.val i j) =
        if (∑ k in Finset.range data.nc,
            (data.mul (effectiveMask e (prefixChannelMask data first last) um)).val k i j) <
            3 * e.rms then none
        else (delegatedPrefixM1 e data first last um).val i j) := by
  have hl0 : 0 ≤ last := le_trans h0 hfl
  constructor
  · intro k i j
    rw [prefixChannelMask_eq_bm data first last hl0]
  · intro i j
    rw [compute_moment_prefix_M1_fresh e data first last um hS0]
    rw [Option.some_bind']
    unfold prefixM1Map delegatedPrefixM1
    dsimp only
    have hz : ∀ t : ℕ, ¬(first ≤ (t : ℤ) ∧ (t : ℤ) ≤ last) →
        (data.mul (effectiveMask e (prefixChannelMask data first last) um)).val t i j = 0 :=
      fun t ht => prefixMasked_vanish e data first last um t i j ht
    have hzv : ∀ t : ℕ, ¬(first ≤ (t : ℤ) ∧ (t : ℤ) ≤ last) →
        (velMul e.velax
          (data.mul (effectiveMask e (prefixChannelMask data first last) um))).val t i j = 0 :=
      fun t ht => velMul_vanish e.velax _ t i j (hz t ht)
    have hD := cumsum_range_extract
      (data.mul (effectiveMask e (prefixChannelMask data first last) um)) first last i j
      h0 hfl hl hz
    have hD1 := cumsum_range_extract
      (velMul e.velax (data.mul (effectiveMask e (prefixChannelMask data first last) um)))
      first last i j h0 hfl hl hzv
    rw [hD, hD1]
    rw [← prefixChannelMask_eq_bm data first last hl0]
    rw [show (velMul e.velax
        (data.mul (effectiveMask e (prefixChannelMask data first last) um))).nc =
      data.nc from rfl]
    rw [show (data.mul (effectiveMask e (prefixChannelMask data first last) um)).nc =
      data.nc from rfl]
    simp only [velMul]

theorem prefix_masking_characterization_witness :
    (prefixChannelMask cube2 0 1).val 0 0 0 =
        (bm.get_channel_mask cube2 0 1).val 0 0 0 ∧
      ((eLoaded.compute_moment_prefix cube2 "M1" 0 1 false).2.bind fun m => m.val 0 0) =
        if (∑ k in Finset.range cube2.nc,
            (cube2.mul (effectiveMask eLoaded (prefixChannelMask cube2 0 1) false)).val
              k 0 0) < 3 * eLoaded.rms then none
        else (delegatedPrefixM1 eLoaded cube2 0 1 false).val 0 0 :=
  ⟨(prefix_masking_characterization eLoaded cube2 0 1 false (by decide) (by decide)
      (by decide) rfl).1 0 0 0,
    (prefix_masking_characterization eLoaded cube2 0 1 false (by decide) (by decide)
      (by decide) rfl).2 0 0⟩

end MomentExplorer
